import Mathlib

/-!
Verification of the Stress Accumulation & Notification Engine of the
`final_year_proj` repository (backend/model_analyzer.py and
backend/stress_notification_system.py), shallowly embedded in Lean 4.

Python machine integers are unbounded, so they are modelled by `Int`/`Nat`
directly; fallible store/collaborator operations are modelled by explicit
success flags carried in an environment record; the `random.choice` over the
three level-1 messages is modelled by an explicit index `Fin 3`.
-/

namespace StressEngine

/-! ## Character-level utilities shared by the embeddings

Python `str.strip` / `\s` / `\w` / `\d` are modelled at ASCII level, matching
the character classes the source actually relies on. -/

/-- Python whitespace class `\s` (ASCII part), also used by `str.strip()`. -/
def isPySpace (c : Char) : Bool :=
  c == ' ' || c == '\t' || c == '\n' || c == '\r' || c == '\x0b' || c == '\x0c'

/-- Python word-character class `\w` (ASCII part). -/
def isPyWordChar (c : Char) : Bool :=
  c.isAlphanum || c == '_'

/-- Python digit class `\d` (ASCII part). -/
def isPyDigit (c : Char) : Bool :=
  c.isDigit

/-- `str.lower()` applied to a character list. -/
def lowerList (l : List Char) : List Char :=
  l.map Char.toLower

/-- `str.lower()` on a string (character-wise, kernel-computable). -/
def pyLower (s : String) : String :=
  ⟨lowerList s.data⟩

/-- `str.strip()`: drop leading and trailing whitespace. -/
def stripList (l : List Char) : List Char :=
  ((l.dropWhile isPySpace).reverse.dropWhile isPySpace).reverse

/-- Python substring containment `needle in haystack`. -/
def containsSub (needle : List Char) : List Char → Bool
  | [] => needle.isEmpty
  | c :: cs => needle.isPrefixOf (c :: cs) || containsSub needle cs

/-- Python `text.split(chr(10))`: split a character list at newline characters. -/
def splitLines : List Char → List (List Char)
  | [] => [[]]
  | c :: cs =>
    if c == '\n' then [] :: splitLines cs
    else
      match splitLines cs with
      | [] => [[c]]
      | l :: ls => (c :: l) :: ls

/-! ## Mood/stress extractor (`ModelAnalyzer.parse_mood_and_stress`)

The source runs `re.search` with the patterns `mood:\s*(\w+)` and
`stress_level:\s*(\d+)`, flag IGNORECASE, over the response text.  The
embedding implements the leftmost-match search for this shape of pattern:
a literal keyword (case-insensitively), then greedy whitespace, then a
non-empty greedy run of "good" characters, which is the captured group. -/

/-- Match the literal keyword `kw` (given lowercase) case-insensitively at the
head of `l`; on success return the remainder. -/
def dropKeywordCI : List Char → List Char → Option (List Char)
  | [], l => some l
  | _ :: _, [] => none
  | k :: ks, c :: cs => if c.toLower == k then dropKeywordCI ks cs else none

/-- Try to match `kw` followed by `\s*` followed by a non-empty run of
characters satisfying `good` at the start of `l`; return the captured run. -/
def matchTokenAt (kw : List Char) (good : Char → Bool) (l : List Char) :
    Option (List Char) :=
  match dropKeywordCI kw l with
  | none => none
  | some rest =>
    let w := (rest.dropWhile isPySpace).takeWhile good
    if w.isEmpty then none else some w

/-- `re.search`: try the pattern at every position, leftmost match wins. -/
def reSearch (kw : List Char) (good : Char → Bool) : List Char → Option (List Char)
  | [] => matchTokenAt kw good []
  | c :: cs =>
    match matchTokenAt kw good (c :: cs) with
    | some w => some w
    | none => reSearch kw good cs

/-- Python `str.capitalize()`: first character uppercased, the rest lowercased. -/
def pyCapitalize : List Char → String
  | [] => ""
  | c :: cs => String.mk (c.toUpper :: cs.map Char.toLower)

/-- Python `int()` on a non-empty string of decimal digits. -/
def digitsToNat (d : List Char) : Nat :=
  d.foldl (fun n c => n * 10 + (c.toNat - '0'.toNat)) 0

/-- `ModelAnalyzer.parse_mood_and_stress` (model_analyzer.py lines 106-124):
extract the mood label and the numeric stress level from the model response,
degrading to `("Unknown", 0)` when a pattern is absent. -/
def parse_mood_and_stress (t : String) : String × Int :=
  let mood :=
    match reSearch "mood:".data isPyWordChar t.data with
    | some w => pyCapitalize w
    | none => "Unknown"
  let sl : Int :=
    match reSearch "stress_level:".data isPyDigit t.data with
    | some d => (digitsToNat d : Nat)
    | none => 0
  (mood, sl)

/-- Specification-side characterisation of a regex match of
`kw` `\s*` (`good`)+ occurring anywhere in `l` with captured group `w`
(the group is a maximal run only for the match the search actually returns;
existence of any such decomposition is equivalent to existence of a match). -/
def tokenMatchIn (kw : List Char) (good : Char → Bool) (l w : List Char) : Prop :=
  ∃ pre ks ws post, l = pre ++ ks ++ ws ++ w ++ post ∧
    ks.map Char.toLower = kw ∧
    (∀ c ∈ ws, isPySpace c = true) ∧
    w ≠ [] ∧ (∀ c ∈ w, good c = true)

/-! ## Stress counter state machine (`ModelAnalyzer.process_stress_tracking`) -/

/-- Counter-reset alert issued by the Happy branch. -/
def resetAlert : String := "🎉 Great mood! Your stress counter has been reset."

/-- High-stress alert (threshold `new_stress_day >= 5`). -/
def highAlert : String :=
  "🔴 HIGH STRESS ALERT: You have high stress level! Please consider taking a break and practicing relaxation techniques."

/-- Moderate-stress alert (threshold `new_stress_day >= 4`). -/
def modAlert : String :=
  "🟡 STRESS ALERT: You have stress! Consider taking some time for self-care activities."

/-- The stress-level rules of the non-Happy branch (model_analyzer.py lines
149-156): level 3 adds 1, levels 4 and 5 add 2, anything else is unchanged. -/
def newStressDay (stress_level current_stress_day : Int) : Int :=
  if stress_level == 3 then current_stress_day + 1
  else if stress_level == 4 || stress_level == 5 then current_stress_day + 2
  else current_stress_day

/-- The threshold alert of the non-Happy branch (model_analyzer.py lines
158-164): `>= 5` high alert, else `>= 4` moderate alert, else none. -/
def thresholdAlert (n : Int) : Option String :=
  if 5 ≤ n then some highAlert else if 4 ≤ n then some modAlert else none

/-- `ModelAnalyzer.process_stress_tracking` (model_analyzer.py lines 126-172).
Returns `(new_stress_day, stress_alert, wrote)` where `wrote` records whether
`update_stress_day` was invoked (the source calls it iff the counter changed). -/
def process_stress_tracking (mood : String) (stress_level current_stress_day : Int) :
    Int × Option String × Bool :=
  if pyLower mood == "happy" then
    (0, some resetAlert, decide ((0 : Int) ≠ current_stress_day))
  else
    (newStressDay stress_level current_stress_day,
     thresholdAlert (newStressDay stress_level current_stress_day),
     decide (newStressDay stress_level current_stress_day ≠ current_stress_day))

/-! ## Notification system (`stress_notification_system.py`)

Time is modelled in minutes: an absolute timestamp `now : Int` stands for the
value of `datetime.now()`, with the hour-of-day derived as `(now / 60) % 24`
and the 2-hour cooldown as 120 minutes.  Store/collaborator failures that the
source catches are modelled by explicit success flags in `NotifEnv`; the
`random.choice` over the three level-1 messages by the index `choice`. -/

/-- The three level-1 messages of `STRESS_MESSAGES["level_1"]`. -/
def level1Messages : List String :=
  ["Calm down yourself - take a moment to breathe",
   "Take a deep breath - inhale peace, exhale stress",
   "Take a glass of water - stay hydrated and refreshed"]

/-- `STRESS_MESSAGES["level_2"]`. -/
def level2Message : String :=
  "You are stressed for a long time. Get time and make rest. Your well-being matters."

/-- `STRESS_MESSAGES["level_3"]`. -/
def level3Message : String :=
  "⚠️ HIGH STRESS ALERT: Please consider visiting a doctor. Your health is important."

/-- A row of the `notification_log` table. -/
structure NotificationEvent where
  userId : String
  ntype : String
  message : String
  stressDay : Int
  sentAt : Int
deriving DecidableEq

/-- Environment of one `check_user_stress` evaluation: success flags of the
fallible store operations, the current time, and the random index used by
`random.choice` for level-1 messages. -/
structure NotifEnv where
  reportQueryOk : Bool
  logQueryOk : Bool
  insertOk : Bool
  now : Int
  choice : Fin 3
deriving DecidableEq

/-- The persistent store as the notification system sees it: the `report`
table rows `(id, stress_day)` (a missing/absent `stress_day` field is `none`,
read back with default 0 by the source) and the `notification_log` table. -/
structure StoreState where
  reports : List (String × Option Int)
  log : List NotificationEvent
deriving DecidableEq

/-- The hour-of-day of an absolute time in minutes, as `datetime.now().hour`. -/
def hourOf (now : Int) : Int :=
  (now / 60) % 24

/-- `StressNotificationSystem.is_notification_time` (lines 40-44): true iff the
current hour is in `[7, 9)`. -/
def is_notification_time (now : Int) : Bool :=
  decide (7 ≤ hourOf now) && decide (hourOf now < 9)

/-- Maximum of a list of timestamps, `none` on the empty list; models the
`order("sent_at", desc=True).limit(1)` query. -/
def maxTime : List Int → Option Int
  | [] => none
  | t :: ts =>
    match maxTime ts with
    | none => some t
    | some m => some (max t m)

/-- The `sent_at` of the most recent `notification_log` row of a given user and
notification type. -/
def lastSentAt (log : List NotificationEvent) (uid ty : String) : Option Int :=
  maxTime ((log.filter (fun e => e.userId == uid && e.ntype == ty)).map (·.sentAt))

/-- `StressNotificationSystem.should_send_notification` (lines 46-78): true iff
the notification may be sent.  A failing lookup is fail-open (returns true); no
previous row returns true; otherwise at least 2 hours must have passed. -/
def should_send_notification (env : NotifEnv) (log : List NotificationEvent)
    (uid ty : String) : Bool :=
  if env.logQueryOk = false then true
  else
    match lastSentAt log uid ty with
    | none => true
    | some t => decide (120 ≤ env.now - t)

/-- `StressNotificationSystem.log_notification` (lines 80-92): append the sent
notification to the log; an insert failure is caught and leaves the log as is. -/
def log_notification (env : NotifEnv) (log : List NotificationEvent)
    (uid ty msg : String) (stressDay : Int) : List NotificationEvent :=
  if env.insertOk then log ++ [⟨uid, ty, msg, stressDay, env.now⟩] else log

/-- `StressNotificationSystem.get_notification_message` (lines 94-116): tier
the counter value into `(notification_type, message, priority)`, choosing the
level-1 message by the random index; `none` models the `(None, None, None)`
return. -/
def get_notification_message (choice : Fin 3) (stress_day : Int) :
    Option (String × String × String) :=
  if 50 < stress_day then some ("level_3", level3Message, "critical")
  else if 10 < stress_day then some ("level_2", level2Message, "high")
  else if 5 < stress_day then some ("level_1", level1Messages.getD choice.val "", "moderate")
  else none

/-- Outcome of one `check_user_stress` evaluation, one constructor per
`status` value of the returned dict. -/
inductive Outcome where
  | errorOut
  | noReport
  | okNormal (stressDay : Int)
  | outsideWindow (stressDay hour : Int)
  | cooldown (stressDay : Int)
  | sent (ntype message priority : String) (stressDay : Int)
deriving DecidableEq

/-- The rows of the `report` table matching a user id (the `eq("id", uid)`
filter of the source's queries). -/
def reportRowsFor (store : StoreState) (uid : String) : List (String × Option Int) :=
  store.reports.filter (fun r => r.1 == uid)

/-- Core of `StressNotificationSystem.check_user_stress` (lines 118-189),
written over the user's report rows and the notification log; returns the
outcome and the new log.  A failing report query is caught by the outer
`except` and yields the error outcome. -/
def check_user_core (env : NotifEnv) (rows : List (String × Option Int))
    (log : List NotificationEvent) (uid : String) : Outcome × List NotificationEvent :=
  if env.reportQueryOk = false then (.errorOut, log)
  else
    match rows with
    | [] => (.noReport, log)
    | row :: _ =>
      let sd := row.2.getD 0
      match get_notification_message env.choice sd with
      | none => (.okNormal sd, log)
      | some (ty, msg, prio) =>
        if ty == "level_1" && !(is_notification_time env.now) then
          (.outsideWindow sd (hourOf env.now), log)
        else if should_send_notification env log uid ty = false then
          (.cooldown sd, log)
        else
          (.sent ty msg prio sd, log_notification env log uid ty msg sd)

/-- `StressNotificationSystem.check_user_stress`: evaluate one user against the
store, returning the outcome and the updated store (only the log can change). -/
def check_user_stress (env : NotifEnv) (store : StoreState) (uid : String) :
    Outcome × StoreState :=
  let r := check_user_core env (reportRowsFor store uid) store.log uid
  (r.1, { store with log := r.2 })

/-- Whether an outcome is the `notification_sent` status. -/
def isSent : Outcome → Bool
  | .sent _ _ _ _ => true
  | _ => false

/-- One iteration of the loop of `check_all_users` (lines 215-224): evaluate
the user of one report row, append its outcome, and bump the counter when a
notification was sent. -/
def sweepStep (envs : String → NotifEnv)
    (acc : List (String × Outcome) × Nat × StoreState) (row : String × Option Int) :
    List (String × Outcome) × Nat × StoreState :=
  let r := check_user_stress (envs row.1) acc.2.2 row.1
  (acc.1 ++ [(row.1, r.1)],
   (if isSent r.1 then acc.2.1 + 1 else acc.2.1),
   r.2)

/-- `StressNotificationSystem.check_all_users` (lines 191-238): sweep every
report row; `none` models the error dict of a failing sweep-level query.  The
successful payload is `(per-user results, notifications_sent, total_users)`
together with the final store. -/
def check_all_users (sweepQueryOk : Bool) (envs : String → NotifEnv)
    (store : StoreState) :
    Option (List (String × Outcome) × Nat × Nat) × StoreState :=
  if sweepQueryOk = false then (none, store)
  else
    let r := store.reports.foldl (sweepStep envs) ([], 0, store)
    (some (r.1, r.2.1, store.reports.length), r.2.2)

/-! ## Response cleaning (`ModelAnalyzer.generate_recommendations`, lines
311-344)

The cleaning of the raw model response after a successful generation call:
split into lines, pick the mood/stress header line and the numbered items, and
substitute a fixed sentinel when the result is empty or shorter than 20
characters. -/

/-- Line test of the first loop: `'mood:' in stripped.lower() or
'stress_level:' in stripped.lower()`. -/
def headerLike (line : List Char) : Bool :=
  containsSub "mood:".data (lowerList (stripList line)) ||
  containsSub "stress_level:".data (lowerList (stripList line))

/-- Line test for the first numbered item: `stripped.startswith('1.')` or
`'1 -'` or `'1)'`. -/
def startsNum1 (line : List Char) : Bool :=
  "1.".data.isPrefixOf (stripList line) ||
  "1 -".data.isPrefixOf (stripList line) ||
  "1)".data.isPrefixOf (stripList line)

/-- The 15 item markers `f'{i}.'`, `f'{i} -'`, `f'{i})'` for `i` in 1..5. -/
def itemMarks : List (List Char) :=
  ["1.".data, "1 -".data, "1)".data, "2.".data, "2 -".data, "2)".data,
   "3.".data, "3 -".data, "3)".data, "4.".data, "4 -".data, "4)".data,
   "5.".data, "5 -".data, "5)".data]

/-- Line test of the second loop's counting predicate: the stripped line starts
with one of the 15 item markers. -/
def isNumbered (line : List Char) : Bool :=
  itemMarks.any (fun m => m.isPrefixOf (stripList line))

/-- First cleaning loop (lines 316-325): find the mood/stress header line,
then the first numbered item, and stop there. -/
def firstLoop : List (List Char) → Bool → List (List Char)
  | [], _ => []
  | line :: rest, found =>
    if !found && headerLike line then line :: firstLoop rest true
    else if found && startsNum1 line then [line]
    else firstLoop rest found

/-- Second cleaning loop (lines 328-336): add the lines following the first
numbered item until five numbered lines are collected. -/
def secondLoop : List (List Char) → List (List Char) → Bool → List (List Char)
  | [], acc, _ => acc
  | line :: rest, acc, adding =>
    if adding then
      if 5 ≤ ((acc ++ [line]).filter isNumbered).length then acc ++ [line]
      else secondLoop rest (acc ++ [line]) true
    else if startsNum1 line then secondLoop rest acc true
    else secondLoop rest acc false

/-- The fixed "insufficient output" sentinel (line 343). -/
def insufficientMsg : String :=
  "Mood: Neutral, stress_level: 0\nError: Model generated insufficient output. Please try again."

/-- The response-cleaning step of `ModelAnalyzer.generate_recommendations`
(model_analyzer.py lines 311-344): run the two loops over the split lines,
keep the original text when no line was collected, and substitute the sentinel
when the outcome is empty or shorter than 20 characters. -/
def generate_recommendations_clean (t : String) : String :=
  let lines := splitLines t.data
  let cl := secondLoop lines (firstLoop lines false) false
  let t2 := if cl.isEmpty then t.data else stripList (List.intercalate ['\n'] cl)
  if t2.isEmpty || t2.length < 20 then insufficientMsg else ⟨t2⟩

end StressEngine

namespace StressEngine

/-! ## Theorems for the stress counter state machine -/

/-- C1: the counter update rules of `process_stress_tracking`, in priority
order: a (case-insensitively) Happy mood resets the counter to 0 regardless of
the stress level; otherwise stress level 3 adds 1, stress levels 4 and 5 add 2,
and every other stress level leaves the counter unchanged. -/
theorem c1_stress_counter_rules (mood : String) (sl cur : Int) :
    (pyLower mood = "happy" → (process_stress_tracking mood sl cur).1 = 0) ∧
    (pyLower mood ≠ "happy" →
      ((sl = 3 → (process_stress_tracking mood sl cur).1 = cur + 1) ∧
       ((sl = 4 ∨ sl = 5) → (process_stress_tracking mood sl cur).1 = cur + 2) ∧
       (sl ≠ 3 → sl ≠ 4 → sl ≠ 5 → (process_stress_tracking mood sl cur).1 = cur))) := by
  constructor
  · intro h
    simp [process_stress_tracking, h]
  · intro h
    have hmood : (pyLower mood == "happy") = false := by
      simp only [beq_eq_false_iff_ne]
      exact h
    have e1 : (process_stress_tracking mood sl cur).1 = newStressDay sl cur := by
      simp [process_stress_tracking, hmood]
    rw [e1]
    unfold newStressDay
    refine ⟨fun h3 => by simp [h3], fun h45 => ?_, fun h3 h4 h5 => by simp [h3, h4, h5]⟩
    rcases h45 with h4 | h4 <;> simp [h4]

/-- Witness for C1 at concrete inputs: a Happy mood with stress level 5 resets,
and a Sad mood with stress level 3 increments by 1. -/
theorem c1_stress_counter_rules_witness :
    (process_stress_tracking "Happy" 5 10).1 = 0 ∧
    (process_stress_tracking "Sad" 3 2).1 = 3 := by
  constructor
  · exact (c1_stress_counter_rules "Happy" 5 10).1 (by decide)
  · exact (((c1_stress_counter_rules "Sad" 3 2).2 (by decide)).1 rfl)

/-- C2: threshold alerting of `process_stress_tracking` for a non-Happy mood:
a new counter value of at least 5 yields the high-stress alert (taking
precedence over the at-least-4 check), a value of at least 4 but below 5 yields
the moderate alert, and a value below 4 yields no alert; the Happy branch
returns the counter-reset alert, which is neither threshold alert. -/
theorem c2_threshold_alerts (mood : String) (sl cur : Int) :
    (pyLower mood ≠ "happy" →
      ((5 ≤ (process_stress_tracking mood sl cur).1 →
          (process_stress_tracking mood sl cur).2.1 = some highAlert) ∧
       (4 ≤ (process_stress_tracking mood sl cur).1 →
          (process_stress_tracking mood sl cur).1 < 5 →
          (process_stress_tracking mood sl cur).2.1 = some modAlert) ∧
       ((process_stress_tracking mood sl cur).1 < 4 →
          (process_stress_tracking mood sl cur).2.1 = none))) ∧
    (pyLower mood = "happy" →
      (process_stress_tracking mood sl cur).2.1 = some resetAlert ∧
      resetAlert ≠ highAlert ∧ resetAlert ≠ modAlert) := by
  constructor
  · intro h
    have hmood : (pyLower mood == "happy") = false := by
      simp only [beq_eq_false_iff_ne]
      exact h
    have e1 : (process_stress_tracking mood sl cur).1 = newStressDay sl cur := by
      simp [process_stress_tracking, hmood]
    have e2 : (process_stress_tracking mood sl cur).2.1 =
        thresholdAlert (newStressDay sl cur) := by
      simp [process_stress_tracking, hmood]
    rw [e1, e2]
    unfold thresholdAlert
    refine ⟨fun h5 => by rw [if_pos h5], fun h4 h5 => ?_, fun hlt => ?_⟩
    · rw [if_neg (by omega), if_pos h4]
    · rw [if_neg (by omega), if_neg (by omega)]
  · intro h
    refine ⟨?_, by decide, by decide⟩
    simp [process_stress_tracking, h]

/-- Witness for C2 at concrete inputs: Sad with stress level 5 from counter 3
reaches 5 and gets the high alert; Sad with stress level 4 from counter 2
reaches 4 and gets the moderate alert. -/
theorem c2_threshold_alerts_witness :
    (process_stress_tracking "Sad" 5 3).2.1 = some highAlert ∧
    (process_stress_tracking "Sad" 4 2).2.1 = some modAlert := by
  constructor
  · exact ((c2_threshold_alerts "Sad" 5 3).1 (by decide)).1 (by decide)
  · exact ((c2_threshold_alerts "Sad" 4 2).1 (by decide)).2.1 (by decide) (by decide)

/-! ## Theorems for the notification tiering -/

theorem gnm_level3 (c : Fin 3) (sd : Int) (h : 50 < sd) :
    get_notification_message c sd = some ("level_3", level3Message, "critical") := by
  simp [get_notification_message, h]

theorem gnm_level2 (c : Fin 3) (sd : Int) (h1 : 10 < sd) (h2 : sd ≤ 50) :
    get_notification_message c sd = some ("level_2", level2Message, "high") := by
  simp [get_notification_message, h1]
  omega

theorem gnm_level1 (c : Fin 3) (sd : Int) (h1 : 5 < sd) (h2 : sd ≤ 10) :
    get_notification_message c sd =
      some ("level_1", level1Messages.getD c.val "", "moderate") := by
  unfold get_notification_message
  rw [if_neg (by omega), if_neg (by omega), if_pos h1]

theorem gnm_none (c : Fin 3) (sd : Int) (h : sd ≤ 5) :
    get_notification_message c sd = none := by
  unfold get_notification_message
  rw [if_neg (by omega), if_neg (by omega), if_neg (by omega)]

/-- The level-1 message chosen by any random index is one of the fixed set. -/
theorem level1_choice_mem (c : Fin 3) : level1Messages.getD c.val "" ∈ level1Messages := by
  fin_cases c <;> simp [level1Messages]

/-- C3: the notification tiering of `get_notification_message`, first match
high to low: a counter above 50 yields `level_3` with the fixed critical
message and critical priority; above 10 and at most 50 yields `level_2` with
the fixed high message and high priority; above 5 and at most 10 yields
`level_1` with one of the fixed set of 3 messages and moderate priority; and at
most 5 yields no notification. -/
theorem c3_notification_tiering (c : Fin 3) (sd : Int) :
    (50 < sd → get_notification_message c sd =
        some ("level_3", level3Message, "critical")) ∧
    (10 < sd → sd ≤ 50 → get_notification_message c sd =
        some ("level_2", level2Message, "high")) ∧
    (5 < sd → sd ≤ 10 → ∃ m ∈ level1Messages,
        get_notification_message c sd = some ("level_1", m, "moderate")) ∧
    (sd ≤ 5 → get_notification_message c sd = none) := by
  refine ⟨gnm_level3 c sd, gnm_level2 c sd, fun h1 h2 => ?_, gnm_none c sd⟩
  exact ⟨level1Messages.getD c.val "", level1_choice_mem c, gnm_level1 c sd h1 h2⟩

/-- Witness for C3 at concrete counter values 60, 20, 7 and 3. -/
theorem c3_notification_tiering_witness :
    get_notification_message 0 60 = some ("level_3", level3Message, "critical") ∧
    get_notification_message 0 20 = some ("level_2", level2Message, "high") ∧
    (∃ m ∈ level1Messages, get_notification_message 0 7 = some ("level_1", m, "moderate")) ∧
    get_notification_message 0 3 = none :=
  ⟨(c3_notification_tiering 0 60).1 (by decide),
   (c3_notification_tiering 0 20).2.1 (by decide) (by decide),
   (c3_notification_tiering 0 7).2.2.1 (by decide) (by decide),
   (c3_notification_tiering 0 3).2.2.2 (by decide)⟩

/-! ## Branch analysis of `check_user_core` -/

/-- The notification window holds exactly when the derived hour is in `[7,9)`. -/
theorem window_iff (now : Int) :
    is_notification_time now = true ↔ (7 ≤ hourOf now ∧ hourOf now < 9) := by
  simp [is_notification_time]

/-- Exhaustive description of the behaviour of `check_user_core`: exactly one
of the six branches of the source function applies, and in each branch the
result is the stated pair. -/
theorem check_user_core_spec (env : NotifEnv) (rows : List (String × Option Int))
    (log : List NotificationEvent) (uid : String) :
    (env.reportQueryOk = false ∧ check_user_core env rows log uid = (.errorOut, log)) ∨
    (env.reportQueryOk = true ∧ rows = [] ∧
      check_user_core env rows log uid = (.noReport, log)) ∨
    (∃ row rest, env.reportQueryOk = true ∧ rows = row :: rest ∧
      ((get_notification_message env.choice (row.2.getD 0) = none ∧
          check_user_core env rows log uid = (.okNormal (row.2.getD 0), log)) ∨
       (∃ ty msg prio,
          get_notification_message env.choice (row.2.getD 0) = some (ty, msg, prio) ∧
          ((ty = "level_1" ∧ is_notification_time env.now = false ∧
              check_user_core env rows log uid =
                (.outsideWindow (row.2.getD 0) (hourOf env.now), log)) ∨
           ((ty = "level_1" → is_notification_time env.now = true) ∧
              should_send_notification env log uid ty = false ∧
              check_user_core env rows log uid = (.cooldown (row.2.getD 0), log)) ∨
           ((ty = "level_1" → is_notification_time env.now = true) ∧
              should_send_notification env log uid ty = true ∧
              check_user_core env rows log uid =
                (.sent ty msg prio (row.2.getD 0),
                 log_notification env log uid ty msg (row.2.getD 0))))))) := by
  by_cases hr : env.reportQueryOk = false
  · exact Or.inl ⟨hr, by simp [check_user_core, hr]⟩
  · right
    have hr' : env.reportQueryOk = true := by
      revert hr
      cases env.reportQueryOk <;> simp
    cases rows with
    | nil => exact Or.inl ⟨hr', rfl, by simp [check_user_core, hr']⟩
    | cons row rest =>
      right
      refine ⟨row, rest, hr', rfl, ?_⟩
      cases hg : get_notification_message env.choice (row.2.getD 0) with
      | none => exact Or.inl ⟨rfl, by simp [check_user_core, hr', hg]⟩
      | some t =>
        right
        obtain ⟨ty, msg, prio⟩ := t
        refine ⟨ty, msg, prio, rfl, ?_⟩
        by_cases hc : (ty == "level_1" && !(is_notification_time env.now)) = true
        · left
          have h1 : ty = "level_1" := by
            have := (Bool.and_eq_true _ _).mp hc
            exact beq_iff_eq.mp this.1
          have h2 : is_notification_time env.now = false := by
            have := (Bool.and_eq_true _ _).mp hc
            simpa using this.2
          exact ⟨h1, h2, by simp [check_user_core, hr', hg, hc]⟩
        · right
          have himp : ty = "level_1" → is_notification_time env.now = true := by
            intro h1
            subst h1
            revert hc
            cases is_notification_time env.now <;> simp
          by_cases hs : should_send_notification env log uid ty = false
          · exact Or.inl ⟨himp, hs, by simp [check_user_core, hr', hg, hc, hs]⟩
          · have hs' : should_send_notification env log uid ty = true := by
              revert hs
              cases should_send_notification env log uid ty <;> simp
            exact Or.inr ⟨himp, hs', by simp [check_user_core, hr', hg, hc, hs']⟩

/-! ## C4: the 7-9 AM window gate -/

/-- C4: in `check_user_stress`, a level-1 decision proceeds only when the hour
is in `[7,9)` and otherwise yields the distinct `outsideWindow` outcome;
level-2 and level-3 tiers are never hour-gated; and consequently every newly
logged level-1 notification event carries a send time whose hour is in
`[7,9)`. -/
theorem c4_window_gate (env : NotifEnv) (store : StoreState) (uid : String) :
    (∀ ty msg prio sd, (check_user_stress env store uid).1 = .sent ty msg prio sd →
      ty = "level_1" → 7 ≤ hourOf env.now ∧ hourOf env.now < 9) ∧
    (∀ row rest, env.reportQueryOk = true → reportRowsFor store uid = row :: rest →
      5 < row.2.getD 0 → row.2.getD 0 ≤ 10 → is_notification_time env.now = false →
      (check_user_stress env store uid).1 =
        .outsideWindow (row.2.getD 0) (hourOf env.now)) ∧
    (∀ row rest, reportRowsFor store uid = row :: rest → 10 < row.2.getD 0 →
      ∀ a b, (check_user_stress env store uid).1 ≠ .outsideWindow a b) ∧
    (∀ e, e ∈ (check_user_stress env store uid).2.log → e ∉ store.log →
      e.ntype = "level_1" → 7 ≤ hourOf e.sentAt ∧ hourOf e.sentAt < 9) := by
  have hspec := check_user_core_spec env (reportRowsFor store uid) store.log uid
  refine ⟨?_, ?_, ?_, ?_⟩
  · intro ty msg prio sd hsent hty
    subst hty
    rcases hspec with ⟨_, he⟩ | ⟨_, _, he⟩ |
      ⟨row, rest, _, _, ⟨_, he⟩ | ⟨ty', msg', prio', _, hbr⟩⟩
    · rw [check_user_stress, he] at hsent
      exact absurd hsent (by simp)
    · rw [check_user_stress, he] at hsent
      exact absurd hsent (by simp)
    · rw [check_user_stress, he] at hsent
      exact absurd hsent (by simp)
    · rcases hbr with ⟨_, _, he⟩ | ⟨_, _, he⟩ | ⟨himp, _, he⟩
      · rw [check_user_stress, he] at hsent
        exact absurd hsent (by simp)
      · rw [check_user_stress, he] at hsent
        exact absurd hsent (by simp)
      · rw [check_user_stress, he] at hsent
        simp only [Outcome.sent.injEq] at hsent
        exact (window_iff env.now).mp (himp (hsent.1.symm ▸ rfl))
  · intro row rest hrep hrows h5 h10 hwin
    have hmsg := gnm_level1 env.choice (row.2.getD 0) h5 h10
    have hcond : (("level_1" : String) == "level_1" &&
        !(is_notification_time env.now)) = true := by
      simp [hwin]
    rw [check_user_stress]
    simp only [check_user_core, hrep, hrows, hmsg, hcond]
    simp [hwin]
  · intro row rest hrows h10 a b hout
    rcases hspec with ⟨_, he⟩ | ⟨_, hnil, _⟩ |
      ⟨row', rest', _, hcons, ⟨hg, he⟩ | ⟨ty', msg', prio', hg, hbr⟩⟩
    · rw [check_user_stress, he] at hout
      exact absurd hout (by simp)
    · rw [hrows] at hnil
      exact List.cons_ne_nil _ _ hnil
    · rw [check_user_stress, he] at hout
      exact absurd hout (by simp)
    · have hrr : row' :: rest' = row :: rest := hcons.symm.trans hrows
      injection hrr with hrow hrest
      rw [hrow] at hg hbr
      have hty' : ty' ≠ "level_1" := by
        by_cases h50 : 50 < row.2.getD 0
        · rw [gnm_level3 env.choice _ h50] at hg
          intro hx
          subst hx
          simp at hg
        · rw [gnm_level2 env.choice _ h10 (by omega)] at hg
          intro hx
          subst hx
          simp at hg
      rcases hbr with ⟨hty, _, _⟩ | ⟨_, _, he⟩ | ⟨_, _, he⟩
      · exact hty' hty
      · rw [check_user_stress, he] at hout
        exact absurd hout (by simp)
      · rw [check_user_stress, he] at hout
        exact absurd hout (by simp)
  · intro e hmem hnew hty
    rcases hspec with ⟨_, he⟩ | ⟨_, _, he⟩ |
      ⟨row, rest, _, _, ⟨_, he⟩ | ⟨ty', msg', prio', _, hbr⟩⟩
    · rw [check_user_stress, he] at hmem
      exact absurd hmem hnew
    · rw [check_user_stress, he] at hmem
      exact absurd hmem hnew
    · rw [check_user_stress, he] at hmem
      exact absurd hmem hnew
    · rcases hbr with ⟨_, _, he⟩ | ⟨_, _, he⟩ | ⟨himp, _, he⟩
      · rw [check_user_stress, he] at hmem
        exact absurd hmem hnew
      · rw [check_user_stress, he] at hmem
        exact absurd hmem hnew
      · rw [check_user_stress, he] at hmem
        simp only [log_notification] at hmem
        by_cases hins : env.insertOk
        · rw [if_pos hins] at hmem
          rcases List.mem_append.mp hmem with h | h
          · exact absurd h hnew
          · have heq : e = ⟨uid, ty', msg', row.2.getD 0, env.now⟩ := by
              simpa using h
            have hty1 : ty' = "level_1" := by
              rw [heq] at hty
              exact hty
            have : hourOf e.sentAt = hourOf env.now := by
              rw [heq]
            rw [this]
            exact (window_iff env.now).mp (himp hty1)
        · rw [if_neg hins] at hmem
          exact absurd hmem hnew

/-- Witness for C4: a user with counter 7 evaluated at 10:00 (hour 10, outside
the window) yields the `outsideWindow` outcome. -/
theorem c4_window_gate_witness :
    (check_user_stress ⟨true, true, true, 600, 0⟩ ⟨[("u", some 7)], []⟩ "u").1 =
      .outsideWindow 7 10 := by
  have h := (c4_window_gate ⟨true, true, true, 600, 0⟩ ⟨[("u", some 7)], []⟩ "u").2.1
    ("u", some 7) [] (by decide) (by decide) (by decide) (by decide) (by decide)
  simpa using h

/-! ## C5 and C6: the 2-hour cooldown -/

/-- Every member of a timestamp list is at most its `maxTime`. -/
theorem maxTime_le_of_mem {t : Int} {ts : List Int} (h : t ∈ ts) :
    ∃ m, maxTime ts = some m ∧ t ≤ m := by
  induction ts with
  | nil => cases h
  | cons a as ih =>
    cases h with
    | head =>
      cases hm : maxTime as with
      | none => exact ⟨t, by simp [maxTime, hm], le_refl t⟩
      | some m => exact ⟨max t m, by simp [maxTime, hm], le_max_left t m⟩
    | tail _ hmem =>
      obtain ⟨m, hm, hle⟩ := ih hmem
      exact ⟨max a m, by simp [maxTime, hm], le_trans hle (le_max_right a m)⟩

/-- C5 counterexample: with a failing cooldown lookup (fail-open), a level-1
event is created at minute 480 (8 AM) although the previous level-1 event for
the same user was logged at minute 450, only 30 minutes earlier — so the
claimed invariant does not extend to executions in which the lookup fails. -/
theorem c5_cooldown_counterexample :
    (check_user_stress ⟨true, false, true, 480, 0⟩
        ⟨[("u", some 7)], [⟨"u", "level_1", "m", 7, 450⟩]⟩ "u").2.log =
      [⟨"u", "level_1", "m", 7, 450⟩,
       ⟨"u", "level_1", "Calm down yourself - take a moment to breathe", 7, 480⟩] ∧
    (⟨"u", "level_1", "Calm down yourself - take a moment to breathe", 7, 480⟩ :
        NotificationEvent) ∉
      ([⟨"u", "level_1", "m", 7, 450⟩] : List NotificationEvent) ∧
    (480 : Int) - 450 < 120 := by
  refine ⟨by decide, by decide, by decide⟩

/-- C5 amended: in every execution of `check_user_stress` in which the cooldown
lookup succeeds, a newly created `NotificationEvent` is at least 2 hours after
every event of the same `notification_type` for the same user already in the
log (so the cooldown invariant holds for all executions with a working
lookup; a failing lookup is fail-open by design and can violate it). -/
theorem c5_cooldown_invariant (env : NotifEnv) (store : StoreState) (uid : String)
    (hlq : env.logQueryOk = true) :
    ∀ e, e ∈ (check_user_stress env store uid).2.log → e ∉ store.log →
      ∀ p, p ∈ store.log → p.userId = e.userId → p.ntype = e.ntype →
        120 ≤ e.sentAt - p.sentAt := by
  intro e hmem hnew p hp hpu hpt
  rcases check_user_core_spec env (reportRowsFor store uid) store.log uid with
    ⟨_, he⟩ | ⟨_, _, he⟩ |
    ⟨row, rest, _, _, ⟨_, he⟩ | ⟨ty, msg, prio, _, hbr⟩⟩
  · rw [check_user_stress, he] at hmem
    exact absurd hmem hnew
  · rw [check_user_stress, he] at hmem
    exact absurd hmem hnew
  · rw [check_user_stress, he] at hmem
    exact absurd hmem hnew
  · rcases hbr with ⟨_, _, he⟩ | ⟨_, _, he⟩ | ⟨_, hss, he⟩
    · rw [check_user_stress, he] at hmem
      exact absurd hmem hnew
    · rw [check_user_stress, he] at hmem
      exact absurd hmem hnew
    · rw [check_user_stress, he] at hmem
      simp only [log_notification] at hmem
      by_cases hins : env.insertOk
      · rw [if_pos hins] at hmem
        rcases List.mem_append.mp hmem with h | h
        · exact absurd h hnew
        · have heq : e = ⟨uid, ty, msg, row.2.getD 0, env.now⟩ := by simpa using h
          have hpu' : p.userId = uid := by rw [hpu, heq]
          have hpt' : p.ntype = ty := by rw [hpt, heq]
          have hpmem : p.sentAt ∈ (store.log.filter
              (fun x => x.userId == uid && x.ntype == ty)).map (·.sentAt) := by
            refine List.mem_map.mpr ⟨p, List.mem_filter.mpr ⟨hp, ?_⟩, rfl⟩
            simp [hpu', hpt']
          obtain ⟨m, hm, hle⟩ := maxTime_le_of_mem hpmem
          have hl : lastSentAt store.log uid ty = some m := hm
          rw [should_send_notification, hlq, hl] at hss
          simp only [decide_eq_true_eq] at hss
          have hge : 120 ≤ env.now - m := by simpa using hss
          have hsent : e.sentAt = env.now := by rw [heq]
          rw [hsent]
          omega
      · rw [if_neg hins] at hmem
        exact absurd hmem hnew

/-- Witness for the amended C5: with a working lookup and a level-1 event 130
minutes old, the freshly created event (the cooldown passes) is at least 120
minutes after it. -/
theorem c5_cooldown_invariant_witness :
    (120 : Int) ≤
      (⟨"u", "level_1", "Calm down yourself - take a moment to breathe", 7, 480⟩ :
        NotificationEvent).sentAt -
      (⟨"u", "level_1", "m", 7, 350⟩ : NotificationEvent).sentAt := by
  exact c5_cooldown_invariant ⟨true, true, true, 480, 0⟩
    ⟨[("u", some 7)], [⟨"u", "level_1", "m", 7, 350⟩]⟩ "u" (by decide)
    ⟨"u", "level_1", "Calm down yourself - take a moment to breathe", 7, 480⟩
    (by decide) (by decide)
    ⟨"u", "level_1", "m", 7, 350⟩ (by decide) (by decide) (by decide)

/-- C6: after the tiering and window gates, the cooldown gate of
`check_user_stress`: with a working lookup, a most recent same-type event less
than 2 hours old yields the `cooldown` outcome and leaves the store unchanged;
with no previous event, a previous event at least 2 hours old, or a failing
lookup (fail-open), the evaluation yields `sent` and appends a
`NotificationEvent` snapshotting the stress day at decision time. -/
theorem c6_cooldown_gate (env : NotifEnv) (store : StoreState) (uid : String)
    (row : String × Option Int) (rest : List (String × Option Int))
    (ty msg prio : String)
    (hrep : env.reportQueryOk = true)
    (hrows : reportRowsFor store uid = row :: rest)
    (hmsg : get_notification_message env.choice (row.2.getD 0) = some (ty, msg, prio))
    (hwin : ty = "level_1" → is_notification_time env.now = true)
    (hins : env.insertOk = true) :
    (∀ t, env.logQueryOk = true → lastSentAt store.log uid ty = some t →
        env.now - t < 120 →
        check_user_stress env store uid = (.cooldown (row.2.getD 0), store)) ∧
    ((env.logQueryOk = false ∨ lastSentAt store.log uid ty = none ∨
        (∃ t, lastSentAt store.log uid ty = some t ∧ 120 ≤ env.now - t)) →
      check_user_stress env store uid =
        (.sent ty msg prio (row.2.getD 0),
         { store with log := store.log ++ [⟨uid, ty, msg, row.2.getD 0, env.now⟩] })) := by
  have hcond : (ty == "level_1" && !(is_notification_time env.now)) = false := by
    by_cases h1 : ty = "level_1"
    · simp [h1, hwin h1]
    · have h2 : (ty == "level_1") = false := beq_eq_false_iff_ne.mpr h1
      simp [h2]
  constructor
  · intro t hlq hlast hlt
    have hss : should_send_notification env store.log uid ty = false := by
      rw [should_send_notification, hlq, hlast]
      simpa using (by omega : ¬(120 ≤ env.now - t))
    simp only [check_user_stress, check_user_core, hrep, hrows, hmsg, hcond, hss]
    simp
  · intro hdisj
    have hss : should_send_notification env store.log uid ty = true := by
      rcases hdisj with h | h | ⟨t, ht, hge⟩
      · rw [should_send_notification, h]
        simp
      · rw [should_send_notification, h]
        cases hb : env.logQueryOk <;> simp
      · rw [should_send_notification, ht]
        cases hb : env.logQueryOk <;> simp [hge]
    simp only [check_user_stress, check_user_core, hrep, hrows, hmsg, hcond, hss,
      log_notification, hins]
    simp

/-- Witness for C6: a level-1 tier with a same-type event 30 minutes old yields
the `cooldown` outcome with an unchanged store. -/
theorem c6_cooldown_gate_witness :
    check_user_stress ⟨true, true, true, 480, 0⟩
        ⟨[("u", some 7)], [⟨"u", "level_1", "m", 7, 450⟩]⟩ "u" =
      (.cooldown 7,
       ⟨[("u", some 7)], [⟨"u", "level_1", "m", 7, 450⟩]⟩) := by
  have h := (c6_cooldown_gate ⟨true, true, true, 480, 0⟩
      ⟨[("u", some 7)], [⟨"u", "level_1", "m", 7, 450⟩]⟩ "u"
      ("u", some 7) [] "level_1"
      "Calm down yourself - take a moment to breathe" "moderate"
      (by decide) (by decide) (by decide) (fun _ => by decide) (by decide)).1
    450 (by decide) (by decide) (by decide)
  simpa using h

/-! ## C9: the fleet-wide sweep -/

/-- Accumulator decomposition of the sweep fold: running from any accumulator
equals running from the empty one and splicing results, counter and store. -/
theorem sweep_decomp (envs : String → NotifEnv) (rows : List (String × Option Int)) :
    ∀ a : List (String × Outcome) × Nat × StoreState,
      List.foldl (sweepStep envs) a rows =
        (a.1 ++ (List.foldl (sweepStep envs) ([], 0, a.2.2) rows).1,
         a.2.1 + (List.foldl (sweepStep envs) ([], 0, a.2.2) rows).2.1,
         (List.foldl (sweepStep envs) ([], 0, a.2.2) rows).2.2) := by
  induction rows with
  | nil => intro a; simp
  | cons r rows ih =>
    intro a
    rw [List.foldl_cons, ih (sweepStep envs a r)]
    conv_rhs => rw [List.foldl_cons]
    rw [ih (sweepStep envs ([], 0, a.2.2) r)]
    simp only [sweepStep, List.nil_append, Prod.mk.injEq]
    refine ⟨by simp, ?_, trivial⟩
    cases h : isSent (check_user_stress (envs r.1) a.2.2 r.1).1 <;> simp [h] <;> omega

/-- The sweep fold produces exactly one outcome per report row. -/
theorem sweep_length (envs : String → NotifEnv) (rows : List (String × Option Int)) :
    ∀ st : StoreState,
      (List.foldl (sweepStep envs) ([], 0, st) rows).1.length = rows.length := by
  induction rows with
  | nil => intro st; simp
  | cons r rows ih =>
    intro st
    simp only [List.foldl_cons, sweepStep, List.nil_append]
    rw [sweep_decomp]
    simp [ih]

/-- The sweep fold's running counter equals the number of sent outcomes. -/
theorem sweep_count (envs : String → NotifEnv) (rows : List (String × Option Int)) :
    ∀ st : StoreState,
      (List.foldl (sweepStep envs) ([], 0, st) rows).2.1 =
        ((List.foldl (sweepStep envs) ([], 0, st) rows).1.filter
          (fun p => isSent p.2)).length := by
  induction rows with
  | nil => intro st; simp
  | cons r rows ih =>
    intro st
    simp only [List.foldl_cons, sweepStep, List.nil_append]
    rw [sweep_decomp]
    cases h : isSent (check_user_stress (envs r.1) st r.1).1 <;> simp [h, ih] <;> omega

/-- One user's evaluation depends on the store only through the user's own
report rows and the log. -/
theorem check_user_stress_congr (env : NotifEnv) (st1 st2 : StoreState) (uid : String)
    (hrows : reportRowsFor st1 uid = reportRowsFor st2 uid)
    (hlog : st1.log = st2.log) :
    (check_user_stress env st1 uid).1 = (check_user_stress env st2 uid).1 ∧
    (check_user_stress env st1 uid).2.log = (check_user_stress env st2 uid).2.log := by
  have h : check_user_core env (reportRowsFor st1 uid) st1.log uid =
      check_user_core env (reportRowsFor st2 uid) st2.log uid := by
    rw [hrows, hlog]
  constructor
  · show (check_user_core env (reportRowsFor st1 uid) st1.log uid).1 =
        (check_user_core env (reportRowsFor st2 uid) st2.log uid).1
    rw [h]
  · show (check_user_core env (reportRowsFor st1 uid) st1.log uid).2 =
        (check_user_core env (reportRowsFor st2 uid) st2.log uid).2
    rw [h]

/-- `check_user_stress` never changes the report table. -/
theorem check_user_stress_reports (env : NotifEnv) (st : StoreState) (uid : String) :
    (check_user_stress env st uid).2.reports = st.reports := rfl

/-- Simulation of the sweep fold over rows none of which is the excised user:
running against the store containing the row `(u, sd)` and against the store
without it produces the same outcomes, counter and log. -/
theorem sweep_sim (envs : String → NotifEnv) (pre post : List (String × Option Int))
    (u : String) (sd : Option Int) :
    ∀ rows : List (String × Option Int), (∀ r ∈ rows, r.1 ≠ u) →
    ∀ st1 st2 : StoreState, st1.reports = pre ++ (u, sd) :: post →
      st2.reports = pre ++ post → st1.log = st2.log →
      ∀ (acc : List (String × Outcome)) (n : Nat),
      (List.foldl (sweepStep envs) (acc, n, st1) rows).1 =
        (List.foldl (sweepStep envs) (acc, n, st2) rows).1 ∧
      (List.foldl (sweepStep envs) (acc, n, st1) rows).2.1 =
        (List.foldl (sweepStep envs) (acc, n, st2) rows).2.1 ∧
      (List.foldl (sweepStep envs) (acc, n, st1) rows).2.2.log =
        (List.foldl (sweepStep envs) (acc, n, st2) rows).2.2.log ∧
      (List.foldl (sweepStep envs) (acc, n, st1) rows).2.2.reports = st1.reports ∧
      (List.foldl (sweepStep envs) (acc, n, st2) rows).2.2.reports = st2.reports := by
  intro rows
  induction rows with
  | nil =>
    intro _ st1 st2 h1 h2 hl acc n
    exact ⟨rfl, rfl, hl, rfl, rfl⟩
  | cons r rows ih =>
    intro hall st1 st2 h1 h2 hl acc n
    have hneq : r.1 ≠ u := hall r (List.mem_cons_self r rows)
    have hrows2 : reportRowsFor st1 r.1 = reportRowsFor st2 r.1 := by
      simp only [reportRowsFor, h1, h2]
      simp [List.filter_append, List.filter_cons,
        beq_eq_false_iff_ne.mpr (Ne.symm hneq)]
    have hcong := check_user_stress_congr (envs r.1) st1 st2 r.1 hrows2 hl
    obtain ⟨ho, hlg⟩ := hcong
    simp only [List.foldl_cons, sweepStep]
    rw [ho]
    have ihp := ih (fun x hx => hall x (List.mem_cons_of_mem _ hx))
      (check_user_stress (envs r.1) st1 r.1).2 (check_user_stress (envs r.1) st2 r.1).2
      (by rw [check_user_stress_reports]; exact h1)
      (by rw [check_user_stress_reports]; exact h2)
      hlg
      (acc ++ [(r.1, (check_user_stress (envs r.1) st2 r.1).1)])
      (if isSent (check_user_stress (envs r.1) st2 r.1).1 = true then n + 1 else n)
    refine ⟨ihp.1, ihp.2.1, ihp.2.2.1, ?_, ?_⟩
    · rw [ihp.2.2.2.1]
      exact check_user_stress_reports (envs r.1) st1 r.1
    · rw [ihp.2.2.2.2]
      exact check_user_stress_reports (envs r.1) st2 r.1

/-- C9: the fleet sweep `check_all_users` records exactly one outcome per
persisted report row, its `notifications_sent` equals the number of outcomes
with the sent status, and a user whose evaluation fails (the failure is caught
inside `check_user_stress` as that user's own error outcome) does not abort the
sweep and does not affect any other user's outcome: the sweep equals the sweep
without that user's row with the single error outcome spliced in, and with the
same `notifications_sent`. -/
theorem c9_sweep_isolation (envs : String → NotifEnv) :
    (∀ (store : StoreState) (R : List (String × Outcome)) (C T : Nat),
       (check_all_users true envs store).1 = some (R, C, T) →
       R.length = store.reports.length ∧ T = store.reports.length ∧
       C = (R.filter (fun p => isSent p.2)).length) ∧
    (∀ (pre post : List (String × Option Int)) (log : List NotificationEvent)
       (u : String) (sd : Option Int),
       (envs u).reportQueryOk = false →
       (∀ r ∈ pre, r.1 ≠ u) → (∀ r ∈ post, r.1 ≠ u) →
       ∃ (R1 : List (String × Outcome)) (C1 : Nat)
         (R2 : List (String × Outcome)) (C2 : Nat),
         (check_all_users true envs ⟨pre ++ (u, sd) :: post, log⟩).1 =
           some (R1, C1, (pre ++ (u, sd) :: post).length) ∧
         (check_all_users true envs ⟨pre ++ post, log⟩).1 =
           some (R2, C2, (pre ++ post).length) ∧
         R1 = R2.take pre.length ++ (u, Outcome.errorOut) :: R2.drop pre.length ∧
         C1 = C2) := by
  constructor
  · intro store R C T hrun
    have hrun' : (some ((store.reports.foldl (sweepStep envs) ([], 0, store)).1,
        (store.reports.foldl (sweepStep envs) ([], 0, store)).2.1,
        store.reports.length) : Option (List (String × Outcome) × Nat × Nat)) =
        some (R, C, T) := by
      rw [← hrun]
      simp [check_all_users]
    injection hrun' with h
    have hR : (store.reports.foldl (sweepStep envs) ([], 0, store)).1 = R :=
      congrArg Prod.fst h
    have hC : (store.reports.foldl (sweepStep envs) ([], 0, store)).2.1 = C :=
      congrArg (fun p => p.2.1) h
    have hT : store.reports.length = T := congrArg (fun p => p.2.2) h
    refine ⟨?_, hT.symm, ?_⟩
    · rw [← hR]
      exact sweep_length envs store.reports store
    · rw [← hC, ← hR]
      exact sweep_count envs store.reports store
  · intro pre post log u sd hfail hpre hpost
    have hsimA := sweep_sim envs pre post u sd pre hpre
      ⟨pre ++ (u, sd) :: post, log⟩ ⟨pre ++ post, log⟩ rfl rfl rfl [] 0
    obtain ⟨a1, a2, a3, a4, a5⟩ := hsimA
    have hsimB := sweep_sim envs pre post u sd post hpost
      (List.foldl (sweepStep envs) ([], 0, ⟨pre ++ (u, sd) :: post, log⟩) pre).2.2
      (List.foldl (sweepStep envs) ([], 0, ⟨pre ++ post, log⟩) pre).2.2
      a4 a5 a3 [] 0
    obtain ⟨b1, b2, b3, b4, b5⟩ := hsimB
    have hstep : sweepStep envs
        (List.foldl (sweepStep envs) ([], 0, ⟨pre ++ (u, sd) :: post, log⟩) pre) (u, sd) =
        ((List.foldl (sweepStep envs) ([], 0, ⟨pre ++ (u, sd) :: post, log⟩) pre).1 ++
           [(u, Outcome.errorOut)],
         (List.foldl (sweepStep envs) ([], 0, ⟨pre ++ (u, sd) :: post, log⟩) pre).2.1,
         (List.foldl (sweepStep envs) ([], 0, ⟨pre ++ (u, sd) :: post, log⟩) pre).2.2) := by
      simp [sweepStep, check_user_stress, check_user_core, hfail, isSent]
    have hF1 : List.foldl (sweepStep envs) ([], 0,
        (⟨pre ++ (u, sd) :: post, log⟩ : StoreState)) (pre ++ (u, sd) :: post) =
        ((List.foldl (sweepStep envs) ([], 0, ⟨pre ++ (u, sd) :: post, log⟩) pre).1 ++
           (u, Outcome.errorOut) ::
           (List.foldl (sweepStep envs) ([], 0,
             (List.foldl (sweepStep envs) ([], 0, ⟨pre ++ (u, sd) :: post, log⟩) pre).2.2)
             post).1,
         (List.foldl (sweepStep envs) ([], 0, ⟨pre ++ (u, sd) :: post, log⟩) pre).2.1 +
           (List.foldl (sweepStep envs) ([], 0,
             (List.foldl (sweepStep envs) ([], 0, ⟨pre ++ (u, sd) :: post, log⟩) pre).2.2)
             post).2.1,
         (List.foldl (sweepStep envs) ([], 0,
           (List.foldl (sweepStep envs) ([], 0, ⟨pre ++ (u, sd) :: post, log⟩) pre).2.2)
           post).2.2) := by
      rw [List.foldl_append, List.foldl_cons, hstep, sweep_decomp envs post]
      simp
    have hF2 : List.foldl (sweepStep envs) ([], 0,
        (⟨pre ++ post, log⟩ : StoreState)) (pre ++ post) =
        ((List.foldl (sweepStep envs) ([], 0, ⟨pre ++ post, log⟩) pre).1 ++
           (List.foldl (sweepStep envs) ([], 0,
             (List.foldl (sweepStep envs) ([], 0, ⟨pre ++ post, log⟩) pre).2.2) post).1,
         (List.foldl (sweepStep envs) ([], 0, ⟨pre ++ post, log⟩) pre).2.1 +
           (List.foldl (sweepStep envs) ([], 0,
             (List.foldl (sweepStep envs) ([], 0, ⟨pre ++ post, log⟩) pre).2.2) post).2.1,
         (List.foldl (sweepStep envs) ([], 0,
           (List.foldl (sweepStep envs) ([], 0, ⟨pre ++ post, log⟩) pre).2.2) post).2.2) := by
      rw [List.foldl_append, sweep_decomp envs post]
    have hlenA : (List.foldl (sweepStep envs) ([], 0,
        (⟨pre ++ post, log⟩ : StoreState)) pre).1.length = pre.length :=
      sweep_length envs pre _
    refine ⟨(List.foldl (sweepStep envs) ([], 0,
        (⟨pre ++ (u, sd) :: post, log⟩ : StoreState)) (pre ++ (u, sd) :: post)).1,
      (List.foldl (sweepStep envs) ([], 0,
        (⟨pre ++ (u, sd) :: post, log⟩ : StoreState)) (pre ++ (u, sd) :: post)).2.1,
      (List.foldl (sweepStep envs) ([], 0,
        (⟨pre ++ post, log⟩ : StoreState)) (pre ++ post)).1,
      (List.foldl (sweepStep envs) ([], 0,
        (⟨pre ++ post, log⟩ : StoreState)) (pre ++ post)).2.1, ?_, ?_, ?_, ?_⟩
    · simp [check_all_users]
    · simp [check_all_users]
    · rw [hF1, hF2]
      simp only
      rw [a1, b1]
      rw [← hlenA, List.take_left, List.drop_left]
    · rw [hF1, hF2]
      simp only
      rw [a2, b2]

/-- Witness for C9: a two-user store where the second user's report query fails
records both outcomes (the failing one as the error outcome), and the sweep of
the remaining user alone agrees with it. -/
theorem c9_sweep_isolation_witness :
    (check_all_users true
        (fun s => if s = "v" then ⟨false, true, true, 600, 0⟩
                  else ⟨true, true, true, 600, 0⟩)
        ⟨[("w", some 3)] ++ ("v", some 7) :: [], []⟩).1 =
      some ([("w", Outcome.okNormal 3), ("v", Outcome.errorOut)], 0, 2) := by
  obtain ⟨R1, C1, R2, C2, h1, h2, h3, h4⟩ :=
    (c9_sweep_isolation
      (fun s => if s = "v" then ⟨false, true, true, 600, 0⟩
                else ⟨true, true, true, 600, 0⟩)).2
      [("w", some 3)] [] [] "v" (some 7) (by decide)
      (by decide) (by decide)
  have h2' := h2
  rw [show (check_all_users true
      (fun s => if s = "v" then (⟨false, true, true, 600, 0⟩ : NotifEnv)
                else ⟨true, true, true, 600, 0⟩)
      ⟨[("w", some 3)] ++ [], []⟩).1 =
    some ([("w", Outcome.okNormal 3)], 0, 1) from by decide] at h2'
  injection h2' with hx
  have hR2 : ([("w", Outcome.okNormal 3)] : List (String × Outcome)) = R2 :=
    congrArg Prod.fst hx
  have hC2 : 0 = C2 := congrArg (fun p => p.2.1) hx
  rw [h1, h3, ← hR2, h4, ← hC2]
  decide

/-! ## C7: the mood/stress extractor -/

theorem space_not_word (c : Char) (h : isPySpace c = true) : isPyWordChar c = false := by
  simp only [isPySpace, Bool.or_eq_true, beq_iff_eq] at h
  rcases h with ((((h | h) | h) | h) | h) | h <;> subst h <;> decide

theorem word_not_space (c : Char) (h : isPyWordChar c = true) : isPySpace c = false := by
  cases hs : isPySpace c
  · rfl
  · rw [space_not_word c hs] at h
    cases h

theorem digit_word (c : Char) (h : isPyDigit c = true) : isPyWordChar c = true := by
  simp only [isPyDigit] at h
  simp [isPyWordChar, Char.isAlphanum, h]

theorem digit_not_space (c : Char) (h : isPyDigit c = true) : isPySpace c = false :=
  word_not_space c (digit_word c h)

theorem dropWhile_append_all (p : Char → Bool) (a b : List Char)
    (h : ∀ c ∈ a, p c = true) : (a ++ b).dropWhile p = b.dropWhile p := by
  induction a with
  | nil => rfl
  | cons c a ih =>
    rw [List.cons_append, List.dropWhile_cons_of_pos (h c (List.mem_cons_self c a))]
    exact ih (fun x hx => h x (List.mem_cons_of_mem _ hx))

theorem takeWhile_append_all (p : Char → Bool) (a b : List Char)
    (h : ∀ c ∈ a, p c = true) : (a ++ b).takeWhile p = a ++ b.takeWhile p := by
  induction a with
  | nil => rfl
  | cons c a ih =>
    rw [List.cons_append, List.takeWhile_cons_of_pos (h c (List.mem_cons_self c a)),
      ih (fun x hx => h x (List.mem_cons_of_mem _ hx))]
    rfl

/-- The case-insensitive keyword matcher accepts any spelling of the keyword. -/
theorem dropKeywordCI_append (ks rest : List Char) :
    dropKeywordCI (ks.map Char.toLower) (ks ++ rest) = some rest := by
  induction ks with
  | nil => rfl
  | cons k ks ih => simp [dropKeywordCI, ih]

/-- What the case-insensitive keyword matcher consumed really spells the
keyword. -/
theorem dropKeywordCI_sound (kw : List Char) :
    ∀ l rest, dropKeywordCI kw l = some rest →
      ∃ ks, l = ks ++ rest ∧ ks.map Char.toLower = kw := by
  induction kw with
  | nil =>
    intro l rest h
    simp only [dropKeywordCI, Option.some.injEq] at h
    exact ⟨[], by simp [h], rfl⟩
  | cons k kw ih =>
    intro l rest h
    cases l with
    | nil => simp [dropKeywordCI] at h
    | cons c cs =>
      simp only [dropKeywordCI] at h
      by_cases hc : (c.toLower == k) = true
      · rw [if_pos hc] at h
        obtain ⟨ks, hcs, hmap⟩ := ih cs rest h
        exact ⟨c :: ks, by simp [hcs], by simp [hmap, beq_iff_eq.mp hc]⟩
      · rw [if_neg hc] at h
        cases h

/-- Completeness of the single-position matcher: at a position spelling
keyword, whitespace, then a non-empty good run, it matches and captures the
maximal good run. -/
theorem matchTokenAt_complete (good : Char → Bool)
    (hgs : ∀ c, good c = true → isPySpace c = false)
    (ks ws w post : List Char)
    (hws : ∀ c ∈ ws, isPySpace c = true) (hw : w ≠ [])
    (hgood : ∀ c ∈ w, good c = true) :
    matchTokenAt (ks.map Char.toLower) good (ks ++ (ws ++ (w ++ post))) =
      some (w ++ post.takeWhile good) := by
  simp only [matchTokenAt, dropKeywordCI_append]
  have h1 : (ws ++ (w ++ post)).dropWhile isPySpace = w ++ post := by
    rw [dropWhile_append_all _ _ _ hws]
    cases w with
    | nil => exact absurd rfl hw
    | cons c w' =>
      rw [List.cons_append,
        List.dropWhile_cons_of_neg (by
          simp [hgs c (hgood c (List.mem_cons_self c w'))])]
  rw [h1, takeWhile_append_all _ _ _ hgood]
  cases w with
  | nil => exact absurd rfl hw
  | cons c w' => rfl

/-- Soundness of the single-position matcher: a successful match decomposes the
input into keyword, whitespace, captured good run and remainder. -/
theorem matchTokenAt_sound (kw : List Char) (good : Char → Bool) (l v : List Char)
    (h : matchTokenAt kw good l = some v) :
    ∃ ks ws post, l = ks ++ (ws ++ (v ++ post)) ∧ ks.map Char.toLower = kw ∧
      (∀ c ∈ ws, isPySpace c = true) ∧ v ≠ [] ∧ (∀ c ∈ v, good c = true) := by
  simp only [matchTokenAt] at h
  cases hdk : dropKeywordCI kw l with
  | none =>
    rw [hdk] at h
    dsimp only at h
    cases h
  | some rest =>
    rw [hdk] at h
    dsimp only at h
    by_cases he : ((rest.dropWhile isPySpace).takeWhile good).isEmpty = true
    · rw [if_pos he] at h
      cases h
    · rw [if_neg he] at h
      injection h with hv
      obtain ⟨ks, hl, hmap⟩ := dropKeywordCI_sound kw l rest hdk
      refine ⟨ks, rest.takeWhile isPySpace,
        (rest.dropWhile isPySpace).dropWhile good, ?_, hmap, ?_, ?_, ?_⟩
      · rw [hl, ← hv]
        congr 1
        rw [List.takeWhile_append_dropWhile, List.takeWhile_append_dropWhile]
      · intro c hc
        exact List.mem_takeWhile_imp hc
      · intro hveq
        rw [hv, hveq] at he
        exact he rfl
      · intro c hc
        rw [← hv] at hc
        exact List.mem_takeWhile_imp hc

/-- The position search succeeds on any extension to the left of a matching
position. -/
theorem reSearch_append (kw : List Char) (good : Char → Bool) (l v : List Char)
    (h : matchTokenAt kw good l = some v) :
    ∀ pre, ∃ u, reSearch kw good (pre ++ l) = some u := by
  intro pre
  induction pre with
  | nil =>
    cases l with
    | nil => exact ⟨v, h⟩
    | cons c cs =>
      refine ⟨v, ?_⟩
      simp [reSearch, h]
  | cons p pre ih =>
    obtain ⟨u, hu⟩ := ih
    cases hm : matchTokenAt kw good (p :: (pre ++ l)) with
    | none =>
      refine ⟨u, ?_⟩
      simp [reSearch, hm, hu]
    | some w =>
      refine ⟨w, ?_⟩
      simp [reSearch, hm]

/-- A successful search is a successful match at some position. -/
theorem reSearch_sound (kw : List Char) (good : Char → Bool) :
    ∀ l v, reSearch kw good l = some v →
      ∃ pre suf, l = pre ++ suf ∧ matchTokenAt kw good suf = some v := by
  intro l
  induction l with
  | nil =>
    intro v h
    exact ⟨[], [], rfl, h⟩
  | cons c cs ih =>
    intro v h
    cases hm : matchTokenAt kw good (c :: cs) with
    | none =>
      rw [reSearch, hm] at h
      obtain ⟨pre, suf, hdec, hms⟩ := ih v h
      exact ⟨c :: pre, suf, by simp [hdec], hms⟩
    | some w =>
      rw [reSearch, hm] at h
      injection h with hw
      exact ⟨[], c :: cs, rfl, by rw [hm, hw]⟩

/-- Completeness of the search against the specification-side pattern
predicate. -/
theorem reSearch_complete (kw : List Char) (good : Char → Bool)
    (hgs : ∀ c, good c = true → isPySpace c = false) (l w : List Char)
    (h : tokenMatchIn kw good l w) : ∃ u, reSearch kw good l = some u := by
  obtain ⟨pre, ks, ws, post, hdec, hmap, hws, hw, hgood⟩ := h
  have hm := matchTokenAt_complete good hgs ks ws w post hws hw hgood
  rw [hmap] at hm
  have := reSearch_append kw good _ _ hm pre
  rw [show pre ++ (ks ++ (ws ++ (w ++ post))) = pre ++ ks ++ ws ++ w ++ post by
    simp [List.append_assoc]] at this
  rw [hdec]
  exact this

/-- Soundness of the search against the specification-side pattern predicate:
the captured group is a real occurrence of the pattern in the input. -/
theorem reSearch_sound_pattern (kw : List Char) (good : Char → Bool) (l v : List Char)
    (h : reSearch kw good l = some v) : tokenMatchIn kw good l v := by
  obtain ⟨pre, suf, hdec, hms⟩ := reSearch_sound kw good l v h
  obtain ⟨ks, ws, post, hsuf, hmap, hws, hv, hgood⟩ := matchTokenAt_sound kw good suf v hms
  exact ⟨pre, ks, ws, post, by simp [hdec, hsuf, List.append_assoc], hmap, hws, hv, hgood⟩

/-- C7: the mood/stress extractor is a total function (the embedding is a Lean
function, so it cannot raise): when the text contains an occurrence of the
(case-insensitive) `mood:<word>` pattern the returned mood is a matched word
capitalized, otherwise it is `"Unknown"`; when the text contains an occurrence
of `stress_level:<integer>` the returned stress level is the integer value of a
matched digit run, otherwise it is `0`.  In particular a text with neither
pattern yields `("Unknown", 0)`. -/
theorem c7_parse_mood_and_stress (t : String) :
    ((∃ w, tokenMatchIn "mood:".data isPyWordChar t.data w) →
       ∃ v, tokenMatchIn "mood:".data isPyWordChar t.data v ∧
         (parse_mood_and_stress t).1 = pyCapitalize v) ∧
    (¬ (∃ w, tokenMatchIn "mood:".data isPyWordChar t.data w) →
       (parse_mood_and_stress t).1 = "Unknown") ∧
    ((∃ d, tokenMatchIn "stress_level:".data isPyDigit t.data d) →
       ∃ e, tokenMatchIn "stress_level:".data isPyDigit t.data e ∧
         (parse_mood_and_stress t).2 = (digitsToNat e : Nat)) ∧
    (¬ (∃ d, tokenMatchIn "stress_level:".data isPyDigit t.data d) →
       (parse_mood_and_stress t).2 = 0) := by
  refine ⟨?_, ?_, ?_, ?_⟩
  · rintro ⟨w, hw⟩
    obtain ⟨u, hu⟩ := reSearch_complete _ _ word_not_space t.data w hw
    exact ⟨u, reSearch_sound_pattern _ _ _ _ hu,
      by simp [parse_mood_and_stress, hu]⟩
  · intro hno
    cases hs : reSearch "mood:".data isPyWordChar t.data with
    | none => simp [parse_mood_and_stress, hs]
    | some v => exact absurd ⟨v, reSearch_sound_pattern _ _ _ _ hs⟩ hno
  · rintro ⟨d, hd⟩
    obtain ⟨u, hu⟩ := reSearch_complete _ _ digit_not_space t.data d hd
    exact ⟨u, reSearch_sound_pattern _ _ _ _ hu,
      by simp [parse_mood_and_stress, hu]⟩
  · intro hno
    cases hs : reSearch "stress_level:".data isPyDigit t.data with
    | none => simp [parse_mood_and_stress, hs]
    | some v => exact absurd ⟨v, reSearch_sound_pattern _ _ _ _ hs⟩ hno

/-- Witness for C7 on the text `"Mood: sad, stress_level: 3"`: both patterns
occur and the parsed values are a capitalized matched word and a matched
integer. -/
theorem c7_parse_mood_and_stress_witness :
    (∃ v, tokenMatchIn "mood:".data isPyWordChar
        "Mood: sad, stress_level: 3".data v ∧
       (parse_mood_and_stress "Mood: sad, stress_level: 3").1 = pyCapitalize v) ∧
    (∃ e, tokenMatchIn "stress_level:".data isPyDigit
        "Mood: sad, stress_level: 3".data e ∧
       (parse_mood_and_stress "Mood: sad, stress_level: 3").2 = (digitsToNat e : Nat)) := by
  constructor
  · exact (c7_parse_mood_and_stress "Mood: sad, stress_level: 3").1
      ⟨"sad".data, [], "Mood:".data, " ".data, ", stress_level: 3".data,
        by decide, by decide, by decide, by decide, by decide⟩
  · exact (c7_parse_mood_and_stress "Mood: sad, stress_level: 3").2.2.1
      ⟨"3".data, "Mood: sad, ".data, "stress_level:".data, " ".data, [],
        by decide, by decide, by decide, by decide, by decide⟩

/-! ## C10: out-of-range stress levels -/

/-- C10: the extractor does not clamp the matched integer to 0-5 (the text
`"stress_level: 12"` parses to stress level 12), and `process_stress_tracking`
with a non-Happy mood and any stress level other than 3, 4 and 5 — including
values above 5 — leaves the counter unchanged and performs no store write. -/
theorem c10_out_of_range_levels :
    (parse_mood_and_stress "stress_level: 12").2 = 12 ∧
    ∀ (mood : String) (sl cur : Int), pyLower mood ≠ "happy" →
      sl ≠ 3 → sl ≠ 4 → sl ≠ 5 →
      (process_stress_tracking mood sl cur).1 = cur ∧
      (process_stress_tracking mood sl cur).2.2 = false := by
  constructor
  · decide
  · intro mood sl cur h h3 h4 h5
    have hmood : (pyLower mood == "happy") = false := by
      simp only [beq_eq_false_iff_ne]
      exact h
    have hn : newStressDay sl cur = cur := by
      unfold newStressDay
      simp [h3, h4, h5]
    constructor
    · simp [process_stress_tracking, hmood, hn]
    · simp [process_stress_tracking, hmood, hn]

/-- Witness for C10: a Sad mood with the unclamped stress level 12 leaves the
counter 3 unchanged and writes nothing. -/
theorem c10_out_of_range_levels_witness :
    (process_stress_tracking "Sad" 12 3).1 = 3 ∧
    (process_stress_tracking "Sad" 12 3).2.2 = false :=
  c10_out_of_range_levels.2 "Sad" 12 3 (by decide) (by decide) (by decide) (by decide)

/-! ## C8: the response-cleaning step -/

/-- C8 counterexample: a 40-character response with no header line and zero
numbered items (fewer than 5) is returned unchanged, not replaced by the
"insufficient output" sentinel — so the claimed substitution on fewer than 5
items does not hold, and the result is in general not bounded in size. -/
theorem c8_clean_counterexample :
    generate_recommendations_clean "A response without numbered tips at all." =
      "A response without numbered tips at all." ∧
    "A response without numbered tips at all." ≠ insufficientMsg := by
  constructor
  · decide
  · decide

theorem firstLoop_skip (pre rest : List (List Char))
    (h : ∀ l ∈ pre, headerLike l = false) :
    firstLoop (pre ++ rest) false = firstLoop rest false := by
  induction pre with
  | nil => rfl
  | cons a pre ih =>
    have ha := h a (List.mem_cons_self a pre)
    rw [List.cons_append]
    simp only [firstLoop, ha, Bool.and_false, Bool.false_and, if_false,
      Bool.false_eq_true, if_neg]
    exact ih (fun x hx => h x (List.mem_cons_of_mem _ hx))

theorem firstLoop_header (hd : List Char) (rest : List (List Char))
    (h : headerLike hd = true) :
    firstLoop (hd :: rest) false = hd :: firstLoop rest true := by
  simp [firstLoop, h]

theorem firstLoop_found_skip (mid rest : List (List Char))
    (h : ∀ l ∈ mid, startsNum1 l = false) :
    firstLoop (mid ++ rest) true = firstLoop rest true := by
  induction mid with
  | nil => rfl
  | cons a mid ih =>
    have ha := h a (List.mem_cons_self a mid)
    rw [List.cons_append]
    simp only [firstLoop, ha, Bool.not_true, Bool.false_and, Bool.and_false,
      Bool.false_eq_true, if_neg]
    exact ih (fun x hx => h x (List.mem_cons_of_mem _ hx))

theorem firstLoop_found_one (i : List Char) (rest : List (List Char))
    (h : startsNum1 i = true) :
    firstLoop (i :: rest) true = [i] := by
  simp [firstLoop, h]

theorem secondLoop_not_start (line : List Char) (rest acc : List (List Char))
    (h : startsNum1 line = false) :
    secondLoop (line :: rest) acc false = secondLoop rest acc false := by
  simp [secondLoop, h]

theorem secondLoop_skip (a rest acc : List (List Char))
    (h : ∀ l ∈ a, startsNum1 l = false) :
    secondLoop (a ++ rest) acc false = secondLoop rest acc false := by
  induction a with
  | nil => rfl
  | cons x a ih =>
    rw [List.cons_append, secondLoop_not_start x _ _ (h x (List.mem_cons_self x a))]
    exact ih (fun y hy => h y (List.mem_cons_of_mem _ hy))

theorem secondLoop_start (i : List Char) (rest acc : List (List Char))
    (h : startsNum1 i = true) :
    secondLoop (i :: rest) acc false = secondLoop rest acc true := by
  simp [secondLoop, h]

theorem secondLoop_add_stop (line : List Char) (rest acc : List (List Char))
    (h : 5 ≤ ((acc ++ [line]).filter isNumbered).length) :
    secondLoop (line :: rest) acc true = acc ++ [line] := by
  show (if 5 ≤ ((acc ++ [line]).filter isNumbered).length then acc ++ [line]
        else secondLoop rest (acc ++ [line]) true) = acc ++ [line]
  rw [if_pos h]

theorem secondLoop_add_go (line : List Char) (rest acc : List (List Char))
    (h : ¬ 5 ≤ ((acc ++ [line]).filter isNumbered).length) :
    secondLoop (line :: rest) acc true = secondLoop rest (acc ++ [line]) true := by
  show (if 5 ≤ ((acc ++ [line]).filter isNumbered).length then acc ++ [line]
        else secondLoop rest (acc ++ [line]) true) = secondLoop rest (acc ++ [line]) true
  rw [if_neg h]

/-- C8 amended: when the split response consists of any non-header,
non-item-starting lines, then a mood/stress header line, then any lines that do
not start a numbered list, then five consecutive numbered items (and anything
after), and the cleaned text reaches the 20-character minimum, the cleaning
step returns exactly the header plus those five items (whitespace-stripped as a
whole); the sentinel is substituted only when the cleaned text is empty or
below 20 characters, not whenever fewer than 5 items are present. -/
theorem c8_clean_header_plus_five (t : String) (header i1 i2 i3 i4 i5 : List Char)
    (pre mid post : List (List Char))
    (hsplit : splitLines t.data =
      pre ++ header :: (mid ++ i1 :: i2 :: i3 :: i4 :: i5 :: post))
    (hpreH : ∀ l ∈ pre, headerLike l = false)
    (hpre1 : ∀ l ∈ pre, startsNum1 l = false)
    (hH : headerLike header = true)
    (hHn : isNumbered header = false)
    (hH1 : startsNum1 header = false)
    (hmid1 : ∀ l ∈ mid, startsNum1 l = false)
    (h1s : startsNum1 i1 = true)
    (h1n : isNumbered i1 = true) (h2n : isNumbered i2 = true)
    (h3n : isNumbered i3 = true) (h4n : isNumbered i4 = true)
    (h5n : isNumbered i5 = true)
    (hlen : 20 ≤ (stripList (List.intercalate ['\n']
      [header, i1, i2, i3, i4, i5])).length) :
    generate_recommendations_clean t =
      ⟨stripList (List.intercalate ['\n'] [header, i1, i2, i3, i4, i5])⟩ := by
  have hfl : firstLoop (splitLines t.data) false = [header, i1] := by
    rw [hsplit, firstLoop_skip pre _ hpreH, firstLoop_header _ _ hH,
      firstLoop_found_skip mid _ hmid1, firstLoop_found_one _ _ h1s]
  have hsl : secondLoop (splitLines t.data) [header, i1] false =
      [header, i1, i2, i3, i4, i5] := by
    rw [hsplit, secondLoop_skip pre _ _ hpre1, secondLoop_not_start _ _ _ hH1,
      secondLoop_skip mid _ _ hmid1, secondLoop_start _ _ _ h1s,
      secondLoop_add_go _ _ _ (by simp [hHn, h1n, h2n]),
      secondLoop_add_go _ _ _ (by simp [hHn, h1n, h2n, h3n]),
      secondLoop_add_go _ _ _ (by simp [hHn, h1n, h2n, h3n, h4n]),
      secondLoop_add_stop _ _ _ (by simp [hHn, h1n, h2n, h3n, h4n, h5n])]
    simp
  have hne : (stripList (List.intercalate ['\n']
      [header, i1, i2, i3, i4, i5])).isEmpty = false := by
    cases hx : (stripList (List.intercalate ['\n']
        [header, i1, i2, i3, i4, i5])).isEmpty
    · rfl
    · rw [List.isEmpty_iff] at hx
      rw [hx] at hlen
      simp at hlen
  have h20 : ¬ (stripList (List.intercalate ['\n']
      [header, i1, i2, i3, i4, i5])).length < 20 := by omega
  simp only [generate_recommendations_clean, hfl, hsl, List.isEmpty_cons,
    if_false, Bool.false_eq_true, if_neg]
  simp [hne, h20]

/-- Witness for the amended C8: a well-formed response of a header line plus
five numbered items is returned exactly as the header plus those items. -/
theorem c8_clean_header_plus_five_witness :
    generate_recommendations_clean
      "Mood: sad, stress_level: 2\n1. A - aa\n2. B - bb\n3. C - cc\n4. D - dd\n5. E - ee" =
      "Mood: sad, stress_level: 2\n1. A - aa\n2. B - bb\n3. C - cc\n4. D - dd\n5. E - ee" := by
  have h := c8_clean_header_plus_five
    "Mood: sad, stress_level: 2\n1. A - aa\n2. B - bb\n3. C - cc\n4. D - dd\n5. E - ee"
    "Mood: sad, stress_level: 2".data "1. A - aa".data "2. B - bb".data
    "3. C - cc".data "4. D - dd".data "5. E - ee".data [] [] []
    (by decide) (by decide) (by decide) (by decide) (by decide) (by decide)
    (by decide) (by decide) (by decide) (by decide) (by decide) (by decide)
    (by decide) (by decide)
  rw [h]
  decide

end StressEngine

